import Mathlib

/-!
Shallow embedding of the vote/reputation subsystem of the Q&A backend
(Express + Mongoose).  The embedded code comes from:

* `src/Server/src/config/database.js` — the Vote model: `voteSchema`,
  its `pre('save')` / `pre('remove')` middleware, the instance method
  `updateTargetVoteScore`, and the static `toggleVote`;
* `src/Server/src/controllers/voteController.js` — the `castVote` and
  `removeVote` request handlers;
* `src/unnamed/part_003` (utils/helpers) — `calculateReputationChange`;
* `src/unnamed/part_009` (User model) — `userSchema.methods.updateReputation`;
* `src/Server/src/utils/validators.js` — the Joi `voteSchema`.

Modelling conventions: MongoDB ObjectIds are `Nat`; JS numbers holding
scores/reputation are `Int`; the `votes` collection is a `List` of records so
that the at-most-one-vote-per-key invariant is a provable statement rather
than a typing artifact; `findOne` is first-match search; `findByIdAndUpdate`
with `$inc` is a pointwise association-list update (a no-op on a missing id,
as in MongoDB).  Date-valued fields (`createdAt`, `lastActivity`) carry no
vote/score/reputation information and are omitted.
-/

namespace QA

/-- Vote direction; `VOTE_TYPES` from utils/constants (`upvote` / `downvote`). -/
inductive VoteType
  | upvote
  | downvote
deriving DecidableEq, Repr

/-- Vote target kind; the `targetType` enum of `voteSchema` (`question` / `answer`). -/
inductive TargetType
  | question
  | answer
deriving DecidableEq, Repr

/-- A document of the `votes` collection (database.js `voteSchema`);
timestamps omitted. -/
structure VoteRec where
  voter : Nat
  target : Nat
  targetType : TargetType
  voteType : VoteType
deriving DecidableEq, Repr

/-- A Question or Answer document projected to the fields the vote subsystem
reads and writes: `author` and `voteScore`. -/
structure TargetDoc where
  author : Nat
  voteScore : Int
deriving DecidableEq, Repr

/-- The database state seen by the vote subsystem: the `votes` collection,
the two target collections, and user reputations (`users` maps user id to
the `reputation` field). -/
structure DB where
  votes : List VoteRec
  questions : List (Nat × TargetDoc)
  answers : List (Nat × TargetDoc)
  users : List (Nat × Int)

/-- The filter `{ voter, target, targetType }` used by `findOne` in
`toggleVote`, `getUserVote` and `removeVote`. -/
def keyMatches (v t : Nat) (k : TargetType) (r : VoteRec) : Bool :=
  r.voter == v && r.target == t && r.targetType == k

/-- `Vote.findOne({ voter, target, targetType })`: first matching document. -/
def findVote (l : List VoteRec) (v t : Nat) (k : TargetType) : Option VoteRec :=
  l.find? (keyMatches v t k)

/-- Number of vote documents for one (voter, target, targetType) key. -/
def countVotes (l : List VoteRec) (v t : Nat) (k : TargetType) : Nat :=
  l.countP (keyMatches v t k)

/-- Deletion of the found vote document (`existingVote.remove()` /
`findByIdAndDelete(vote._id)`): removes the first match of the key. -/
def eraseVote : List VoteRec → Nat → Nat → TargetType → List VoteRec
  | [], _, _, _ => []
  | r :: rest, v, t, k =>
      if keyMatches v t k r then rest else r :: eraseVote rest v t k

/-- In-place flip of the found vote document's direction
(`existingVote.voteType = voteType; existingVote.save(...)`). -/
def setVoteType : List VoteRec → Nat → Nat → TargetType → VoteType → List VoteRec
  | [], _, _, _, _ => []
  | r :: rest, v, t, k, d =>
      if keyMatches v t k r then { r with voteType := d } :: rest
      else r :: setVoteType rest v t k d

/-- Association-list lookup: `findById`. -/
def lookupA {β : Type} : List (Nat × β) → Nat → Option β
  | [], _ => none
  | p :: rest, i => if p.1 = i then some p.2 else lookupA rest i

/-- Association-list pointwise update: `findByIdAndUpdate` (a no-op when the
id is absent, as in MongoDB). -/
def updA {β : Type} : List (Nat × β) → Nat → (β → β) → List (Nat × β)
  | [], _, _ => []
  | p :: rest, i, f => (if p.1 = i then (p.1, f p.2) else p) :: updA rest i f

/-- Numeric impact of a vote direction: `voteType === UPVOTE ? 1 : -1`
(database.js `updateTargetVoteScore` default value). -/
def directionValue : VoteType → Int
  | .upvote => 1
  | .downvote => -1

/-- Instance method `updateTargetVoteScore` (database.js lines 129-159):
`$inc` the target's `voteScore` by the given value on the collection selected
by `targetType`.  The `lastActivity` touches are date-only and omitted. -/
def updateTargetVoteScore (s : DB) (k : TargetType) (t : Nat) (value : Int) : DB :=
  match k with
  | .question =>
      { s with questions := updA s.questions t (fun d => { d with voteScore := d.voteScore + value }) }
  | .answer =>
      { s with answers := updA s.answers t (fun d => { d with voteScore := d.voteScore + value }) }

/-- The transition reported by `toggleVote`. -/
inductive Action
  | created
  | updated
  | removed
deriving DecidableEq, Repr

/-- The value returned by `toggleVote`: `{ action, vote }`. -/
structure ToggleResult where
  action : Action
  vote : Option VoteRec
deriving DecidableEq, Repr

/-- Static `voteSchema.statics.toggleVote` (database.js lines 162-205),
sequential semantics (no interleaved writer, so the create step cannot raise
a duplicate-key error; the catch on `error.code === 11000` is modelled
separately by `toggleVoteRetry`).  The `pre('save')` middleware applies
`directionValue` to the target score for a new document; the `pre('remove')`
middleware applies its negation before deletion; the update branch applies
`voteType === UPVOTE ? 2 : -2` explicitly and then saves a non-new document
(no further score change). -/
def toggleVote (s : DB) (voterId targetId : Nat) (targetType : TargetType)
    (voteType : VoteType) : DB × ToggleResult :=
  match findVote s.votes voterId targetId targetType with
  | some existingVote =>
      if existingVote.voteType = voteType then
        let s1 := updateTargetVoteScore s targetType targetId
          (-(directionValue existingVote.voteType))
        let s2 := { s1 with votes := eraseVote s1.votes voterId targetId targetType }
        (s2, ⟨.removed, none⟩)
      else
        let scoreChange : Int := if voteType = .upvote then 2 else -2
        let s1 := updateTargetVoteScore s targetType targetId scoreChange
        let s2 := { s1 with votes := setVoteType s1.votes voterId targetId targetType voteType }
        (s2, ⟨.updated, some { existingVote with voteType := voteType }⟩)
  | none =>
      let newVote : VoteRec :=
        { voter := voterId, target := targetId, targetType := targetType, voteType := voteType }
      let s1 := updateTargetVoteScore s targetType targetId (directionValue voteType)
      let s2 := { s1 with votes := s1.votes ++ [newVote] }
      (s2, ⟨.created, some newVote⟩)

/-- The reputation actions of the `reputationMap` in `calculateReputationChange`
(utils/helpers). -/
inductive RepAction
  | question_upvote
  | question_downvote
  | answer_upvote
  | answer_downvote
  | answer_accepted
  | accept_answer
deriving DecidableEq, Repr

/-- Helper `calculateReputationChange` (utils/helpers lines 116-127). -/
def calculateReputationChange : RepAction → Int
  | .question_upvote => 5
  | .question_downvote => -2
  | .answer_upvote => 10
  | .answer_downvote => -2
  | .answer_accepted => 15
  | .accept_answer => 2

/-- The key the controller builds with
`voteType === 'upvote' ? 'question_upvote' : 'question_downvote'` (and the
answer analogue). -/
def repActionFor (k : TargetType) (d : VoteType) : RepAction :=
  match k, d with
  | .question, .upvote => .question_upvote
  | .question, .downvote => .question_downvote
  | .answer, .upvote => .answer_upvote
  | .answer, .downvote => .answer_downvote

/-- The controller's reputation-delta computation (voteController.js lines
52-78), branching on the action reported by the vote ledger. -/
def castReputationChange (k : TargetType) (d : VoteType) : Action → Int
  | .created => calculateReputationChange (repActionFor k d)
  | .updated =>
      let upvoteChange := calculateReputationChange (repActionFor k .upvote)
      let downvoteChange := calculateReputationChange (repActionFor k .downvote)
      if d = .upvote then upvoteChange - downvoteChange else downvoteChange - upvoteChange
  | .removed => -(calculateReputationChange (repActionFor k d))

/-- Instance method `userSchema.methods.updateReputation` (User model):
`this.reputation = Math.max(0, this.reputation + change)`. -/
def updateReputation (rep change : Int) : Int :=
  max 0 (rep + change)

/-- Rejected outcomes of the vote request handlers, by HTTP status and message:
`targetNotFound` = 404 "(targetType) not found"; `selfVote` = 400 "Cannot vote
on your own content"; `voteNotFound` = 404 "Vote not found"; `internalError` =
the 500 path (e.g. the target author's user document is missing, so
`updateReputation` cannot run). -/
inductive ApiError
  | targetNotFound
  | selfVote
  | voteNotFound
  | internalError
deriving DecidableEq, Repr

/-- The success payload of `castVote`: `{ action, vote, newReputation }`. -/
structure CastOk where
  action : Action
  vote : Option VoteRec
  newReputation : Int
deriving DecidableEq, Repr

/-- The controller's target lookup (`Question.findById` / `Answer.findById`
selected by `targetType`). -/
def lookupTarget (s : DB) (k : TargetType) (t : Nat) : Option TargetDoc :=
  match k with
  | .question => lookupA s.questions t
  | .answer => lookupA s.answers t

/-- The `voteScore` field of the target, when the target exists. -/
def scoreOf (s : DB) (k : TargetType) (t : Nat) : Option Int :=
  (lookupTarget s k t).map (fun d => d.voteScore)

/-- Request handler `castVote` (voteController.js lines 14-112) after Joi
validation: verify the target exists, reject self-votes, run the vote-ledger
toggle, compute the reputation delta from the reported action, apply it to
the target author via `updateReputation` when non-zero, and respond with
`{ action, vote, newReputation }` where `newReputation` is computed as
`targetAuthor.reputation + reputationChange` — reading the author document
*after* `updateReputation` mutated it in place.  The source invokes the
ledger as `Vote.castVote(...)` (line 48), a static the Vote model never
defines; its only toggle operation is `toggleVote`, to which the call is
resolved here (see `voteModelStatics` for the wire-level mismatch). -/
def castVote (s : DB) (userId target : Nat) (targetType : TargetType)
    (voteType : VoteType) : DB × Except ApiError CastOk :=
  match lookupTarget s targetType target with
  | none => (s, .error .targetNotFound)
  | some targetModel =>
      if targetModel.author = userId then
        (s, .error .selfVote)
      else
        let out := toggleVote s userId target targetType voteType
        let s1 := out.1
        let voteResult := out.2
        match lookupA s1.users targetModel.author with
        | none => (s1, .error .internalError)
        | some rep =>
            let reputationChange := castReputationChange targetType voteType voteResult.action
            let storedRep :=
              if reputationChange ≠ 0 then updateReputation rep reputationChange else rep
            let s2 :=
              if reputationChange ≠ 0 then
                { s1 with users := updA s1.users targetModel.author (fun r => updateReputation r reputationChange) }
              else s1
            (s2, .ok ⟨voteResult.action, voteResult.vote, storedRep + reputationChange⟩)

/-- Request handler `removeVote` (voteController.js lines 205-265): find the
caller's vote for the key, delete it with `Vote.findByIdAndDelete` — a
query-level deletion that does **not** run the document `pre('remove')`
middleware, so the target's `voteScore` is not adjusted — then apply the
negated reputation award to the target's author (skipped when the target no
longer exists, per the `if (targetModel)` guard). -/
def removeVote (s : DB) (userId targetId : Nat) (targetType : TargetType) :
    DB × Except ApiError Unit :=
  match findVote s.votes userId targetId targetType with
  | none => (s, .error .voteNotFound)
  | some vote =>
      let s1 := { s with votes := eraseVote s.votes userId targetId targetType }
      match lookupTarget s1 targetType targetId with
      | none => (s1, .ok ())
      | some targetModel =>
          match lookupA s1.users targetModel.author with
          | none => (s1, .error .internalError)
          | some _ =>
              let reputationChange :=
                -(calculateReputationChange (repActionFor targetType vote.voteType))
              let s2 := { s1 with users := updA s1.users targetModel.author (fun r => updateReputation r reputationChange) }
              (s2, .ok ())

/-- Valid values of the `voteType` field in the Joi vote schema. -/
def validVoteTypeValue (v : String) : Bool :=
  v == "upvote" || v == "downvote"

/-- The Joi `voteSchema` of validators.js lines 207-211, applied to a request
body seen as key/value pairs: the schema declares exactly one key,
`voteType` (required, values `upvote`/`downvote`), and Joi rejects unknown
keys by default, so any other key present is a validation error. -/
def joiValidateVoteBody (body : List (String × String)) : Bool :=
  (body.all fun p => p.1 == "voteType") &&
    match body.find? (fun p => p.1 == "voteType") with
    | some p => validVoteTypeValue p.2
    | none => false

/-- The statics defined on the Vote model (database.js lines 162, 208, 217,
253). -/
def voteModelStatics : List String :=
  ["toggleVote", "getUserVote", "getVoteSummary", "updateUserReputation"]

/-- The static the `castVote` handler invokes on the Vote model
(voteController.js line 48: `Vote.castVote(...)`). -/
def controllerInvokedStatic : String :=
  "castVote"

/-- Outcome of one attempt of the `toggleVote` body, abstracting the state
transition so the catch structure of lines 198-204 can be studied on its
own: `duplicateKey` is an error with `code === 11000` raised by the create
step (a concurrent writer won the race), `done` is a normal return, and
`otherFailure` is any other thrown error. -/
inductive AttemptOutcome
  | duplicateKey
  | done (r : ToggleResult)
  | otherFailure
deriving DecidableEq, Repr

/-- The try/catch wrapper of `toggleVote` (database.js lines 163, 198-204):
on a duplicate-key error the function re-invokes itself (`return await
this.toggleVote(...)`) with no retry counter, so each new duplicate-key
failure is retried again; any other error is rethrown.  The argument lists
the outcome of each successive attempt; `none` means every listed attempt
raised duplicate-key and the recursion is still running. -/
def toggleVoteRetry : List AttemptOutcome → Option (Except Unit ToggleResult)
  | [] => none
  | .duplicateKey :: rest => toggleVoteRetry rest
  | .done r :: _ => some (.ok r)
  | .otherFailure :: _ => some (.error ())

/-- A `submitVote` request, for replaying call sequences. -/
structure Call where
  voter : Nat
  target : Nat
  targetType : TargetType
  voteType : VoteType

/-- Replay of a sequence of vote-ledger calls. -/
def runCalls (s : DB) : List Call → DB
  | [] => s
  | c :: rest => runCalls (toggleVote s c.voter c.target c.targetType c.voteType).1 rest

/-- At most one vote document per (voter, target, targetType) key, the
invariant the compound unique index of database.js line 98 enforces. -/
def Uniq (l : List VoteRec) : Prop :=
  ∀ v t k, countVotes l v t k ≤ 1

/-- Concrete database used by the closed scenario theorems: question 10 and
answer 20 both authored by user 0 (reputation 100) with `voteScore` 0;
user 1 (reputation 3) is the voter; no votes yet. -/
def demoState : DB :=
  { votes := []
  , questions := [(10, ⟨0, 0⟩)]
  , answers := [(20, ⟨0, 0⟩)]
  , users := [(0, 100), (1, 3)] }

/-- State after user 1 upvotes question 10 of `demoState`. -/
def demoQ1 : DB := (castVote demoState 1 10 .question .upvote).1

/-- State after user 1 then downvotes question 10 (flip). -/
def demoQ2 : DB := (castVote demoQ1 1 10 .question .downvote).1

/-- State after user 1 downvotes question 10 again (toggle off). -/
def demoQ3 : DB := (castVote demoQ2 1 10 .question .downvote).1

/-- State after user 1 upvotes answer 20 of `demoState`. -/
def demoA1 : DB := (castVote demoState 1 20 .answer .upvote).1

/-- Concrete database for the rejection witness: question 10 is authored by
user 7, who is also the caller. -/
def selfVoteState : DB :=
  { votes := [], questions := [(10, ⟨7, 0⟩)], answers := [], users := [(7, 0)] }

/-- Concrete database for the `removeVote` witness: user 1 holds a downvote
on question 10, authored by user 0 (reputation 50, `voteScore` 5). -/
def removeVoteState : DB :=
  { votes := [⟨1, 10, .question, .downvote⟩]
  , questions := [(10, ⟨0, 5⟩)]
  , answers := []
  , users := [(0, 50)] }

/-- Action of a `castVote` response, when it succeeded. -/
def actionOf (e : Except ApiError CastOk) : Option Action :=
  match e with
  | .ok r => some r.action
  | .error _ => none

/-- Reported `newReputation` of a `castVote` response, when it succeeded. -/
def newRepOf (e : Except ApiError CastOk) : Option Int :=
  match e with
  | .ok r => some r.newReputation
  | .error _ => none

/-! Auxiliary lemmas about the list-level primitives. -/

theorem keyMatches_iff {v t : Nat} {k : TargetType} {r : VoteRec} :
    keyMatches v t k r = true ↔ r.voter = v ∧ r.target = t ∧ r.targetType = k := by
  simp [keyMatches, and_assoc]

theorem keyMatches_mk (v t : Nat) (k : TargetType) (d : VoteType) :
    keyMatches v t k ⟨v, t, k, d⟩ = true := by
  simp [keyMatches]

theorem keyMatches_setType (v t : Nat) (k : TargetType) (r : VoteRec) (d : VoteType) :
    keyMatches v t k { r with voteType := d } = keyMatches v t k r := rfl

theorem findVote_eq_none_iff {l : List VoteRec} {v t : Nat} {k : TargetType} :
    findVote l v t k = none ↔ countVotes l v t k = 0 := by
  induction l with
  | nil => simp [findVote, countVotes]
  | cons r rest ih =>
      by_cases h : keyMatches v t k r = true
      · simp [findVote, countVotes, List.find?_cons, List.countP_cons, h]
      · simp only [Bool.not_eq_true] at h
        simp only [findVote, countVotes, List.find?_cons, List.countP_cons, h] at ih ⊢
        simp [ih]

theorem findVote_append_of_none {l : List VoteRec} {v t : Nat} {k : TargetType}
    (h : findVote l v t k = none) (r : VoteRec) :
    findVote (l ++ [r]) v t k = if keyMatches v t k r then some r else none := by
  unfold findVote at h ⊢
  rw [List.find?_append, h]
  cases hr : keyMatches v t k r <;> simp [List.find?_cons, hr]

theorem findVote_eraseVote_self {l : List VoteRec} {v t : Nat} {k : TargetType}
    (h : countVotes l v t k ≤ 1) :
    findVote (eraseVote l v t k) v t k = none := by
  induction l with
  | nil => simp [findVote, eraseVote]
  | cons r rest ih =>
      by_cases hr : keyMatches v t k r = true
      · simp only [countVotes, List.countP_cons, hr, if_pos] at h
        have h0 : countVotes rest v t k = 0 := by
          simp only [countVotes] at h ⊢; omega
        simp [eraseVote, hr, findVote_eq_none_iff, h0]
      · simp only [Bool.not_eq_true] at hr
        have h' : countVotes rest v t k ≤ 1 := by
          simp only [countVotes, List.countP_cons, hr] at h ⊢; omega
        simp [eraseVote, hr, findVote, List.find?_cons]
        simpa [findVote] using ih h'

theorem findVote_setVoteType_self {l : List VoteRec} {v t : Nat} {k : TargetType}
    {ex : VoteRec} {d : VoteType} (h : findVote l v t k = some ex) :
    findVote (setVoteType l v t k d) v t k = some { ex with voteType := d } := by
  induction l with
  | nil => simp [findVote] at h
  | cons r rest ih =>
      by_cases hr : keyMatches v t k r = true
      · have hrx : r = ex := by
          simpa [findVote, List.find?_cons, hr] using h
        subst hrx
        simp [setVoteType, hr, findVote, List.find?_cons, keyMatches_setType, hr]
      · simp only [Bool.not_eq_true] at hr
        have h' : findVote rest v t k = some ex := by
          simpa [findVote, List.find?_cons, hr] using h
        simp [setVoteType, hr, findVote, List.find?_cons]
        simpa [findVote] using ih h'

theorem countVotes_append (l : List VoteRec) (r : VoteRec) (v t : Nat) (k : TargetType) :
    countVotes (l ++ [r]) v t k =
      countVotes l v t k + if keyMatches v t k r then 1 else 0 := by
  simp [countVotes, List.countP_append, List.countP_cons]

theorem countVotes_eraseVote_le (l : List VoteRec) (v t : Nat) (k : TargetType)
    (v' t' : Nat) (k' : TargetType) :
    countVotes (eraseVote l v t k) v' t' k' ≤ countVotes l v' t' k' := by
  induction l with
  | nil => simp [eraseVote]
  | cons r rest ih =>
      by_cases hr : keyMatches v t k r = true
      · simp only [eraseVote, hr, if_pos, countVotes, List.countP_cons]
        omega
      · simp only [Bool.not_eq_true] at hr
        simp only [eraseVote, hr, Bool.false_eq_true, if_false, countVotes, List.countP_cons]
        simp only [countVotes] at ih
        omega

theorem countVotes_setVoteType (l : List VoteRec) (v t : Nat) (k : TargetType)
    (d : VoteType) (v' t' : Nat) (k' : TargetType) :
    countVotes (setVoteType l v t k d) v' t' k' = countVotes l v' t' k' := by
  induction l with
  | nil => simp [setVoteType]
  | cons r rest ih =>
      by_cases hr : keyMatches v t k r = true
      · simp [setVoteType, hr, countVotes, List.countP_cons, keyMatches_setType]
      · simp only [Bool.not_eq_true] at hr
        simp only [setVoteType, hr, Bool.false_eq_true, if_false, countVotes,
          List.countP_cons]
        simp only [countVotes] at ih
        omega

theorem lookupA_updA_self {β : Type} (l : List (Nat × β)) (i : Nat) (f : β → β) :
    lookupA (updA l i f) i = (lookupA l i).map f := by
  induction l with
  | nil => rfl
  | cons p rest ih =>
      by_cases hp : p.1 = i
      · simp [updA, lookupA, hp]
      · simp [updA, lookupA, hp, ih]

theorem lookupA_updA_ne {β : Type} (l : List (Nat × β)) (i j : Nat) (f : β → β)
    (h : j ≠ i) :
    lookupA (updA l i f) j = lookupA l j := by
  induction l with
  | nil => rfl
  | cons p rest ih =>
      by_cases hp : p.1 = i
      · have hpj : ¬p.1 = j := by omega
        simp [updA, lookupA, hp, hpj, ih, Ne.symm h]
      · by_cases hj : p.1 = j <;> simp [updA, lookupA, hp, hj, ih, h]

/-! Frame lemmas for the state-level operations. -/

theorem votes_updateTargetVoteScore (s : DB) (k : TargetType) (t : Nat) (x : Int) :
    (updateTargetVoteScore s k t x).votes = s.votes := by
  cases k <;> rfl

theorem users_updateTargetVoteScore (s : DB) (k : TargetType) (t : Nat) (x : Int) :
    (updateTargetVoteScore s k t x).users = s.users := by
  cases k <;> rfl

theorem lookupTarget_votes_irrel (s : DB) (l : List VoteRec) (k : TargetType) (t : Nat) :
    lookupTarget { s with votes := l } k t = lookupTarget s k t := by
  cases k <;> rfl

theorem lookupTarget_users_irrel (s : DB) (l : List (Nat × Int)) (k : TargetType) (t : Nat) :
    lookupTarget { s with users := l } k t = lookupTarget s k t := by
  cases k <;> rfl

theorem lookupTarget_updateTargetVoteScore_self (s : DB) (k : TargetType) (t : Nat) (x : Int) :
    lookupTarget (updateTargetVoteScore s k t x) k t =
      (lookupTarget s k t).map (fun d => { d with voteScore := d.voteScore + x }) := by
  cases k <;> simp [lookupTarget, updateTargetVoteScore, lookupA_updA_self]

/-! Branch equations for `toggleVote` and `castVote`. -/

theorem toggleVote_created_eq (s : DB) (v t : Nat) (k : TargetType) (d : VoteType)
    (hnone : findVote s.votes v t k = none) :
    toggleVote s v t k d =
      ({ updateTargetVoteScore s k t (directionValue d) with
          votes := s.votes ++ [⟨v, t, k, d⟩] },
        ⟨.created, some ⟨v, t, k, d⟩⟩) := by
  simp only [toggleVote, hnone, votes_updateTargetVoteScore]

theorem toggleVote_removed_eq (s : DB) (v t : Nat) (k : TargetType) (d : VoteType)
    {ex : VoteRec} (hex : findVote s.votes v t k = some ex) (hsame : ex.voteType = d) :
    toggleVote s v t k d =
      ({ updateTargetVoteScore s k t (-(directionValue ex.voteType)) with
          votes := eraseVote s.votes v t k },
        ⟨.removed, none⟩) := by
  simp only [toggleVote, hex, hsame, if_pos, votes_updateTargetVoteScore]

theorem toggleVote_updated_eq (s : DB) (v t : Nat) (k : TargetType) (d : VoteType)
    {ex : VoteRec} (hex : findVote s.votes v t k = some ex) (hdiff : ¬ex.voteType = d) :
    toggleVote s v t k d =
      ({ updateTargetVoteScore s k t (if d = .upvote then 2 else -2) with
          votes := setVoteType s.votes v t k d },
        ⟨.updated, some { ex with voteType := d }⟩) := by
  simp only [toggleVote, hex, hdiff, if_false, votes_updateTargetVoteScore]

theorem castReputationChange_ne_zero (k : TargetType) (d : VoteType) (a : Action) :
    castReputationChange k d a ≠ 0 := by
  cases k <;> cases d <;> cases a <;> decide

theorem castVote_created_eq (s : DB) (v t : Nat) (k : TargetType) (d : VoteType)
    {doc : TargetDoc} {r : Int}
    (htgt : lookupTarget s k t = some doc) (hne : ¬doc.author = v)
    (hrep : lookupA s.users doc.author = some r)
    (hnone : findVote s.votes v t k = none) :
    castVote s v t k d =
      ({ { updateTargetVoteScore s k t (directionValue d) with
            votes := s.votes ++ [(⟨v, t, k, d⟩ : VoteRec)] } with
          users := updA s.users doc.author
            (fun x => updateReputation x (castReputationChange k d .created)) },
        .ok ⟨.created, some ⟨v, t, k, d⟩,
          updateReputation r (castReputationChange k d .created) +
            castReputationChange k d .created⟩) := by
  simp only [castVote, htgt, hne, if_false, toggleVote_created_eq s v t k d hnone,
    users_updateTargetVoteScore, hrep, ne_eq, castReputationChange_ne_zero k d Action.created,
    not_false_iff, if_true]

theorem castVote_removed_eq (s : DB) (v t : Nat) (k : TargetType) (d : VoteType)
    {doc : TargetDoc} {r : Int} {ex : VoteRec}
    (htgt : lookupTarget s k t = some doc) (hne : ¬doc.author = v)
    (hrep : lookupA s.users doc.author = some r)
    (hex : findVote s.votes v t k = some ex) (hsame : ex.voteType = d) :
    castVote s v t k d =
      ({ { updateTargetVoteScore s k t (-(directionValue ex.voteType)) with
            votes := eraseVote s.votes v t k } with
          users := updA s.users doc.author
            (fun x => updateReputation x (castReputationChange k d .removed)) },
        .ok ⟨.removed, none,
          updateReputation r (castReputationChange k d .removed) +
            castReputationChange k d .removed⟩) := by
  simp only [castVote, htgt, hne, if_false, toggleVote_removed_eq s v t k d hex hsame,
    users_updateTargetVoteScore, hrep, ne_eq, castReputationChange_ne_zero k d Action.removed,
    not_false_iff, if_true]

theorem castVote_updated_eq (s : DB) (v t : Nat) (k : TargetType) (d : VoteType)
    {doc : TargetDoc} {r : Int} {ex : VoteRec}
    (htgt : lookupTarget s k t = some doc) (hne : ¬doc.author = v)
    (hrep : lookupA s.users doc.author = some r)
    (hex : findVote s.votes v t k = some ex) (hdiff : ¬ex.voteType = d) :
    castVote s v t k d =
      ({ { updateTargetVoteScore s k t (if d = .upvote then 2 else -2) with
            votes := setVoteType s.votes v t k d } with
          users := updA s.users doc.author
            (fun x => updateReputation x (castReputationChange k d .updated)) },
        .ok ⟨.updated, some { ex with voteType := d },
          updateReputation r (castReputationChange k d .updated) +
            castReputationChange k d .updated⟩) := by
  simp only [castVote, htgt, hne, if_false, toggleVote_updated_eq s v t k d hex hdiff,
    users_updateTargetVoteScore, hrep, ne_eq, castReputationChange_ne_zero k d Action.updated,
    not_false_iff, if_true]

/-! Observable consequences of the three `castVote` branches, used to chain
calls in the sequence theorems. -/

theorem castVote_created_obs (s : DB) (v t : Nat) (k : TargetType) (d : VoteType)
    {doc : TargetDoc} {r : Int}
    (htgt : lookupTarget s k t = some doc) (hne : ¬doc.author = v)
    (hrep : lookupA s.users doc.author = some r)
    (hnone : findVote s.votes v t k = none) :
    (castVote s v t k d).2 =
      .ok ⟨.created, some ⟨v, t, k, d⟩,
        updateReputation r (castReputationChange k d .created) +
          castReputationChange k d .created⟩ ∧
    (castVote s v t k d).1.votes = s.votes ++ [(⟨v, t, k, d⟩ : VoteRec)] ∧
    lookupTarget (castVote s v t k d).1 k t =
      some { doc with voteScore := doc.voteScore + directionValue d } ∧
    lookupA (castVote s v t k d).1.users doc.author =
      some (updateReputation r (castReputationChange k d .created)) := by
  rw [castVote_created_eq s v t k d htgt hne hrep hnone]
  refine ⟨rfl, rfl, ?_, ?_⟩
  · cases k <;>
      simp [lookupTarget, updateTargetVoteScore, lookupA_updA_self] <;>
      simp [lookupTarget] at htgt <;>
      simp [htgt]
  · show lookupA (updA s.users doc.author _) doc.author = _
    rw [lookupA_updA_self, hrep]
    rfl

theorem castVote_removed_obs (s : DB) (v t : Nat) (k : TargetType) (d : VoteType)
    {doc : TargetDoc} {r : Int} {ex : VoteRec}
    (htgt : lookupTarget s k t = some doc) (hne : ¬doc.author = v)
    (hrep : lookupA s.users doc.author = some r)
    (hex : findVote s.votes v t k = some ex) (hsame : ex.voteType = d) :
    (castVote s v t k d).2 =
      .ok ⟨.removed, none,
        updateReputation r (castReputationChange k d .removed) +
          castReputationChange k d .removed⟩ ∧
    (castVote s v t k d).1.votes = eraseVote s.votes v t k ∧
    lookupTarget (castVote s v t k d).1 k t =
      some { doc with voteScore := doc.voteScore + -(directionValue ex.voteType) } ∧
    lookupA (castVote s v t k d).1.users doc.author =
      some (updateReputation r (castReputationChange k d .removed)) := by
  rw [castVote_removed_eq s v t k d htgt hne hrep hex hsame]
  refine ⟨rfl, rfl, ?_, ?_⟩
  · cases k <;>
      simp [lookupTarget, updateTargetVoteScore, lookupA_updA_self] <;>
      simp [lookupTarget] at htgt <;>
      simp [htgt]
  · show lookupA (updA s.users doc.author _) doc.author = _
    rw [lookupA_updA_self, hrep]
    rfl

theorem castVote_updated_obs (s : DB) (v t : Nat) (k : TargetType) (d : VoteType)
    {doc : TargetDoc} {r : Int} {ex : VoteRec}
    (htgt : lookupTarget s k t = some doc) (hne : ¬doc.author = v)
    (hrep : lookupA s.users doc.author = some r)
    (hex : findVote s.votes v t k = some ex) (hdiff : ¬ex.voteType = d) :
    (castVote s v t k d).2 =
      .ok ⟨.updated, some { ex with voteType := d },
        updateReputation r (castReputationChange k d .updated) +
          castReputationChange k d .updated⟩ ∧
    (castVote s v t k d).1.votes = setVoteType s.votes v t k d ∧
    lookupTarget (castVote s v t k d).1 k t =
      some { doc with voteScore := doc.voteScore + (if d = .upvote then 2 else -2) } ∧
    lookupA (castVote s v t k d).1.users doc.author =
      some (updateReputation r (castReputationChange k d .updated)) := by
  rw [castVote_updated_eq s v t k d htgt hne hrep hex hdiff]
  refine ⟨rfl, rfl, ?_, ?_⟩
  · cases k <;>
      simp [lookupTarget, updateTargetVoteScore, lookupA_updA_self] <;>
      simp [lookupTarget] at htgt <;>
      simp [htgt]
  · show lookupA (updA s.users doc.author _) doc.author = _
    rw [lookupA_updA_self, hrep]
    rfl

/-! Claim theorems. -/

/-- C1: every `toggleVote` call on a state with at most one vote for the key
takes exactly one of three transitions, determined by the existing vote: no
existing vote creates one with the given direction and reports `created`; a
same-direction vote is deleted and reported `removed`; an opposite-direction
vote is flipped in place and reported `updated`. -/
theorem toggleVote_three_transitions (s : DB) (v t : Nat) (k : TargetType) (d : VoteType)
    (huniq : countVotes s.votes v t k ≤ 1) :
    (findVote s.votes v t k = none →
      (toggleVote s v t k d).2 = ⟨.created, some ⟨v, t, k, d⟩⟩ ∧
      findVote (toggleVote s v t k d).1.votes v t k = some ⟨v, t, k, d⟩) ∧
    (∀ ex, findVote s.votes v t k = some ex → ex.voteType = d →
      (toggleVote s v t k d).2 = ⟨.removed, none⟩ ∧
      findVote (toggleVote s v t k d).1.votes v t k = none) ∧
    (∀ ex, findVote s.votes v t k = some ex → ¬ex.voteType = d →
      (toggleVote s v t k d).2 = ⟨.updated, some { ex with voteType := d }⟩ ∧
      findVote (toggleVote s v t k d).1.votes v t k = some { ex with voteType := d }) := by
  refine ⟨?_, ?_, ?_⟩
  · intro hnone
    rw [toggleVote_created_eq s v t k d hnone]
    refine ⟨rfl, ?_⟩
    show findVote (s.votes ++ [(⟨v, t, k, d⟩ : VoteRec)]) v t k = some ⟨v, t, k, d⟩
    rw [findVote_append_of_none hnone]
    simp [keyMatches_mk]
  · intro ex hex hsame
    rw [toggleVote_removed_eq s v t k d hex hsame]
    exact ⟨rfl, findVote_eraseVote_self huniq⟩
  · intro ex hex hdiff
    rw [toggleVote_updated_eq s v t k d hex hdiff]
    exact ⟨rfl, findVote_setVoteType_self hex⟩

/-- Witness for C1: on `demoState` (no votes yet), user 1's upvote on
question 10 takes the `created` transition. -/
theorem toggleVote_three_transitions_witness :
    (toggleVote demoState 1 10 .question .upvote).2 =
      ⟨.created, some ⟨1, 10, .question, .upvote⟩⟩ ∧
    findVote (toggleVote demoState 1 10 .question .upvote).1.votes 1 10 .question =
      some ⟨1, 10, .question, .upvote⟩ :=
  (toggleVote_three_transitions demoState 1 10 .question .upvote (by decide)).1 (by decide)

theorem toggleVote_preserves_uniq (s : DB) (v t : Nat) (k : TargetType) (d : VoteType)
    (h : Uniq s.votes) : Uniq (toggleVote s v t k d).1.votes := by
  intro v' t' k'
  cases hf : findVote s.votes v t k with
  | none =>
      rw [toggleVote_created_eq s v t k d hf]
      show countVotes (s.votes ++ [(⟨v, t, k, d⟩ : VoteRec)]) v' t' k' ≤ 1
      rw [countVotes_append]
      by_cases hm : keyMatches v' t' k' (⟨v, t, k, d⟩ : VoteRec) = true
      · obtain ⟨h1, h2, h3⟩ := keyMatches_iff.mp hm
        have h0 : countVotes s.votes v t k = 0 := findVote_eq_none_iff.mp hf
        simp only [VoteRec.voter] at h1
        simp only [VoteRec.target] at h2
        simp only [VoteRec.targetType] at h3
        subst h1; subst h2; subst h3
        simp [hm, h0]
      · simp only [Bool.not_eq_true] at hm
        simp only [hm, Bool.false_eq_true, if_false, Nat.add_zero]
        exact h v' t' k'
  | some ex =>
      by_cases hd : ex.voteType = d
      · rw [toggleVote_removed_eq s v t k d hf hd]
        show countVotes (eraseVote s.votes v t k) v' t' k' ≤ 1
        exact le_trans (countVotes_eraseVote_le s.votes v t k v' t' k') (h v' t' k')
      · rw [toggleVote_updated_eq s v t k d hf hd]
        show countVotes (setVoteType s.votes v t k d) v' t' k' ≤ 1
        rw [countVotes_setVoteType]
        exact h v' t' k'

/-- C2: starting from a state with at most one vote per (voter, target,
targetType) key, any finite sequence of `toggleVote` calls preserves that
bound for every key. -/
theorem runCalls_preserves_uniqueness (s : DB) (cs : List Call) (h : Uniq s.votes) :
    Uniq (runCalls s cs).votes := by
  induction cs generalizing s with
  | nil => exact h
  | cons c rest ih =>
      exact ih _ (toggleVote_preserves_uniq s c.voter c.target c.targetType c.voteType h)

/-- Witness for C2: a three-call up/down/down sequence on `demoState` leaves
at most one vote for the key. -/
theorem runCalls_preserves_uniqueness_witness :
    countVotes (runCalls demoState
      [⟨1, 10, .question, .upvote⟩, ⟨1, 10, .question, .downvote⟩,
        ⟨1, 10, .question, .downvote⟩]).votes 1 10 .question ≤ 1 :=
  runCalls_preserves_uniqueness demoState
    [⟨1, 10, .question, .upvote⟩, ⟨1, 10, .question, .downvote⟩,
      ⟨1, 10, .question, .downvote⟩]
    (fun v t k => by simp [demoState, countVotes]) 1 10 .question

/-- C3: with no prior vote by `v` on target `t`, two successive upvotes
through `castVote` cancel out: no vote row remains, and the target's
`voteScore` and the author's stored reputation return to their initial
values (the author's reputation being non-negative, as the schema
enforces). -/
theorem submitVote_toggle_idempotent (s : DB) (v t : Nat) (k : TargetType)
    {doc : TargetDoc} {r : Int}
    (htgt : lookupTarget s k t = some doc) (hne : ¬doc.author = v)
    (hrep : lookupA s.users doc.author = some r) (hr : 0 ≤ r)
    (hnone : findVote s.votes v t k = none) :
    findVote (castVote (castVote s v t k .upvote).1 v t k .upvote).1.votes v t k = none ∧
    scoreOf (castVote (castVote s v t k .upvote).1 v t k .upvote).1 k t = scoreOf s k t ∧
    lookupA (castVote (castVote s v t k .upvote).1 v t k .upvote).1.users doc.author =
      some r := by
  obtain ⟨-, hv1, ht1, hu1⟩ := castVote_created_obs s v t k .upvote htgt hne hrep hnone
  have hex1 : findVote (castVote s v t k .upvote).1.votes v t k =
      some ⟨v, t, k, .upvote⟩ := by
    rw [hv1, findVote_append_of_none hnone]
    simp [keyMatches_mk]
  have h0 : countVotes s.votes v t k = 0 := findVote_eq_none_iff.mp hnone
  have hcnt1 : countVotes (castVote s v t k .upvote).1.votes v t k ≤ 1 := by
    rw [hv1, countVotes_append, h0, keyMatches_mk]
    simp
  obtain ⟨-, hv2, ht2, hu2⟩ :=
    castVote_removed_obs (castVote s v t k .upvote).1 v t k .upvote ht1 hne hu1 hex1 rfl
  refine ⟨?_, ?_, ?_⟩
  · rw [hv2]
    exact findVote_eraseVote_self hcnt1
  · rw [scoreOf, ht2, scoreOf, htgt]
    simp only [Option.map_some', directionValue, Option.some.injEq]
    omega
  · have hpos : 0 < castReputationChange k .upvote .created := by cases k <;> decide
    have harith :
        updateReputation (updateReputation r (castReputationChange k .upvote .created))
          (castReputationChange k .upvote .removed) = r := by
      have hc : castReputationChange k .upvote .removed =
          -(castReputationChange k .upvote .created) := rfl
      rw [hc]
      simp only [updateReputation]
      rw [max_eq_right (by omega : (0 : Int) ≤ r + castReputationChange k .upvote .created)]
      rw [show r + castReputationChange k .upvote .created +
            -(castReputationChange k .upvote .created) = r by ring]
      exact max_eq_right hr
    rw [harith] at hu2
    exact hu2

/-- Witness for C3: on `demoState`, voter 1 upvoting question 10 twice is a
no-op for the vote table, the score and the author's reputation. -/
theorem submitVote_toggle_idempotent_witness :
    findVote (castVote (castVote demoState 1 10 .question .upvote).1 1 10 .question
        .upvote).1.votes 1 10 .question = none ∧
    scoreOf (castVote (castVote demoState 1 10 .question .upvote).1 1 10 .question
        .upvote).1 .question 10 = scoreOf demoState .question 10 ∧
    lookupA (castVote (castVote demoState 1 10 .question .upvote).1 1 10 .question
        .upvote).1.users 0 = some 100 :=
  @submitVote_toggle_idempotent demoState 1 10 .question ⟨0, 0⟩ 100
    (by decide) (by decide) (by decide) (by decide) (by decide)

/-- C4 counterexample: on `demoState` (question 10 at score 0), an upvote
followed by a downvote by voter 1 leaves the score at −1, not at the −2 the
claim's "net voteScore delta of −2" requires. -/
theorem submitVote_flip_counterexample :
    scoreOf demoState .question 10 = some 0 ∧
    scoreOf (castVote (castVote demoState 1 10 .question .upvote).1 1 10 .question
        .downvote).1 .question 10 = some (-1) ∧
    scoreOf (castVote (castVote demoState 1 10 .question .upvote).1 1 10 .question
        .downvote).1 .question 10 ≠ some (0 - 2) := by
  decide

/-- C4 (amended): with no prior vote by `v`, an upvote then a downvote
through `castVote` leaves exactly one vote row for the key, with direction
`down`, and a net `voteScore` delta of −1 relative to before the first call
(the flip itself applies −2 relative to the post-upvote score). -/
theorem submitVote_flip (s : DB) (v t : Nat) (k : TargetType)
    {doc : TargetDoc} {r : Int}
    (htgt : lookupTarget s k t = some doc) (hne : ¬doc.author = v)
    (hrep : lookupA s.users doc.author = some r)
    (hnone : findVote s.votes v t k = none) :
    countVotes (castVote (castVote s v t k .upvote).1 v t k .downvote).1.votes v t k = 1 ∧
    findVote (castVote (castVote s v t k .upvote).1 v t k .downvote).1.votes v t k =
      some ⟨v, t, k, .downvote⟩ ∧
    scoreOf (castVote (castVote s v t k .upvote).1 v t k .downvote).1 k t =
      some (doc.voteScore - 1) := by
  obtain ⟨-, hv1, ht1, hu1⟩ := castVote_created_obs s v t k .upvote htgt hne hrep hnone
  have hex1 : findVote (castVote s v t k .upvote).1.votes v t k =
      some ⟨v, t, k, .upvote⟩ := by
    rw [hv1, findVote_append_of_none hnone]
    simp [keyMatches_mk]
  have h0 : countVotes s.votes v t k = 0 := findVote_eq_none_iff.mp hnone
  have hcnt1 : countVotes (castVote s v t k .upvote).1.votes v t k = 1 := by
    rw [hv1, countVotes_append, h0, keyMatches_mk]
    simp
  have hdiff : ¬(⟨v, t, k, .upvote⟩ : VoteRec).voteType = VoteType.downvote :=
    fun h => VoteType.noConfusion h
  obtain ⟨-, hv2, ht2, hu2⟩ :=
    castVote_updated_obs (castVote s v t k .upvote).1 v t k .downvote ht1 hne hu1 hex1 hdiff
  refine ⟨?_, ?_, ?_⟩
  · rw [hv2, countVotes_setVoteType]
    exact hcnt1
  · rw [hv2]
    exact findVote_setVoteType_self hex1
  · rw [scoreOf, ht2,
      if_neg (by decide : ¬(VoteType.downvote = VoteType.upvote))]
    simp only [Option.map_some', directionValue, Option.some.injEq]
    omega

/-- Witness for C4 (amended): the up-then-down sequence on `demoState`. -/
theorem submitVote_flip_witness :
    countVotes (castVote (castVote demoState 1 10 .question .upvote).1 1 10 .question
        .downvote).1.votes 1 10 .question = 1 ∧
    findVote (castVote (castVote demoState 1 10 .question .upvote).1 1 10 .question
        .downvote).1.votes 1 10 .question = some ⟨1, 10, .question, .downvote⟩ ∧
    scoreOf (castVote (castVote demoState 1 10 .question .upvote).1 1 10 .question
        .downvote).1 .question 10 = some ((0 : Int) - 1) :=
  @submitVote_flip demoState 1 10 .question ⟨0, 0⟩ 100
    (by decide) (by decide) (by decide) (by decide)

/-- C5: `castVote` rejects a self-vote (the voter is the target's author)
with the 400 "Cannot vote on your own content" response and returns the
state unchanged, and rejects a missing target with a 404 response and the
state unchanged. -/
theorem castVote_rejections (s : DB) (v t : Nat) (k : TargetType) (d : VoteType) :
    (∀ doc, lookupTarget s k t = some doc → doc.author = v →
      castVote s v t k d = (s, .error .selfVote)) ∧
    (lookupTarget s k t = none →
      castVote s v t k d = (s, .error .targetNotFound)) := by
  constructor
  · intro doc hdoc hauthor
    simp [castVote, hdoc, hauthor]
  · intro hmiss
    simp [castVote, hmiss]

/-- Witness for C5: on `selfVoteState`, author 7 voting on their own
question 10 is rejected, as is a vote on the missing target 99; the state is
returned unchanged in both cases. -/
theorem castVote_rejections_witness :
    castVote selfVoteState 7 10 .question .upvote = (selfVoteState, .error .selfVote) ∧
    castVote selfVoteState 7 99 .question .upvote =
      (selfVoteState, .error .targetNotFound) :=
  ⟨(castVote_rejections selfVoteState 7 10 .question .upvote).1 ⟨7, 0⟩ (by decide) rfl,
    (castVote_rejections selfVoteState 7 99 .question .upvote).2 (by decide)⟩

/-- C6 counterexample: after a duplicate-key failure and a duplicate-key
failure on the retry, the catch of `toggleVote` runs a third attempt and
returns its result instead of surfacing the recurring duplicate-key error
after the single retry, as the claim requires. -/
theorem toggleVoteRetry_counterexample :
    toggleVoteRetry [.duplicateKey, .duplicateKey, .done ⟨.created, none⟩] =
      some (.ok ⟨.created, none⟩) ∧
    ¬toggleVoteRetry [.duplicateKey, .duplicateKey, .done ⟨.created, none⟩] =
      some (.error ()) :=
  ⟨rfl, fun h => Except.noConfusion (Option.some.inj h)⟩

/-- C6 (amended): on a duplicate-key error `toggleVote` re-invokes itself
with no retry bound: any number of consecutive duplicate-key failures
followed by a normal attempt yields that attempt's result, and a run of
duplicate-key failures alone never surfaces an error (the recursion is still
running). -/
theorem toggleVoteRetry_unbounded (n : Nat) (r : ToggleResult) :
    toggleVoteRetry (List.replicate n .duplicateKey ++ [.done r]) = some (.ok r) ∧
    toggleVoteRetry (List.replicate n .duplicateKey) = none := by
  induction n with
  | zero => exact ⟨rfl, rfl⟩
  | succ m ih => simpa [List.replicate_succ, toggleVoteRetry] using ih

/-- C7: with the reputation constants of `calculateReputationChange`
(question upvote +5, question downvote −2, answer upvote +10, answer
downvote −2), the demo scenario — author 0 at reputation 100, targets at
score 0, voter 1 — runs: upvote → `created`, score 1, stored reputation 105
(question) / 110 (answer); downvote on the question → `updated`, score −1,
stored reputation 98; downvote again → `removed`, score 0, stored
reputation 100. -/
theorem castVote_demo_scenario :
    calculateReputationChange .question_upvote = 5 ∧
    calculateReputationChange .question_downvote = -2 ∧
    calculateReputationChange .answer_upvote = 10 ∧
    calculateReputationChange .answer_downvote = -2 ∧
    actionOf (castVote demoState 1 10 .question .upvote).2 = some .created ∧
    scoreOf demoQ1 .question 10 = some 1 ∧
    lookupA demoQ1.users 0 = some 105 ∧
    actionOf (castVote demoQ1 1 10 .question .downvote).2 = some .updated ∧
    scoreOf demoQ2 .question 10 = some (-1) ∧
    lookupA demoQ2.users 0 = some 98 ∧
    actionOf (castVote demoQ2 1 10 .question .downvote).2 = some .removed ∧
    scoreOf demoQ3 .question 10 = some 0 ∧
    lookupA demoQ3.users 0 = some 100 ∧
    actionOf (castVote demoState 1 20 .answer .upvote).2 = some .created ∧
    scoreOf demoA1 .answer 20 = some 1 ∧
    lookupA demoA1.users 0 = some 110 := by
  decide

/-- C8: the wire shape `(target, targetType, voteType)` is rejected by the
Joi vote schema — whose only allowed key is `voteType`, unknown keys being
validation errors — and the static the handler invokes on the Vote model,
`castVote`, is not among the statics the model defines (its toggle operation
is `toggleVote`), so a request of the documented shape cannot succeed. -/
theorem voteWire_validator_and_dispatch :
    joiValidateVoteBody
      [("target", "68a1b2c3"), ("targetType", "question"), ("voteType", "upvote")] =
      false ∧
    joiValidateVoteBody [("voteType", "upvote")] = true ∧
    ¬controllerInvokedStatic ∈ voteModelStatics ∧
    "toggleVote" ∈ voteModelStatics := by
  decide

/-- C9: on the demo scenario's first question upvote (author reputation 100,
delta +5), the stored reputation after `castVote` is 105 = max(0, 100 + 5),
but the `newReputation` field of the response is 110: the handler computes
it as `targetAuthor.reputation + reputationChange` after `updateReputation`
already mutated `targetAuthor.reputation`, so the delta is applied twice in
the reported value and the response does not equal the stored reputation. -/
theorem castVote_newReputation_mismatch :
    lookupA demoQ1.users 0 = some 105 ∧
    newRepOf (castVote demoState 1 10 .question .upvote).2 = some 110 := by
  decide

/-- C10: when a vote exists for the key, `removeVote` succeeds, deletes the
vote row and applies the negated reputation award to the target's author,
but leaves the target's `voteScore` unchanged: `findByIdAndDelete` is a
query-level deletion that does not run the document `pre('remove')` hook
which would have reversed the score. -/
theorem removeVote_skips_score_reversal (s : DB) (v t : Nat) (k : TargetType)
    {vote : VoteRec} {doc : TargetDoc} {r : Int}
    (hvote : findVote s.votes v t k = some vote)
    (huniq : countVotes s.votes v t k ≤ 1)
    (htgt : lookupTarget s k t = some doc)
    (hrep : lookupA s.users doc.author = some r) :
    (removeVote s v t k).2 = .ok () ∧
    findVote (removeVote s v t k).1.votes v t k = none ∧
    scoreOf (removeVote s v t k).1 k t = scoreOf s k t ∧
    lookupA (removeVote s v t k).1.users doc.author =
      some (updateReputation r
        (-(calculateReputationChange (repActionFor k vote.voteType)))) := by
  have htgt1 : lookupTarget { s with votes := eraseVote s.votes v t k } k t = some doc := by
    rw [lookupTarget_votes_irrel]
    exact htgt
  simp only [removeVote, hvote, htgt1, hrep]
  refine ⟨?_, ?_, ?_, ?_⟩
  · trivial
  · show findVote (eraseVote s.votes v t k) v t k = none
    exact findVote_eraseVote_self huniq
  · show scoreOf _ k t = scoreOf s k t
    cases k <;> simp [scoreOf, lookupTarget]
  · show lookupA (updA s.users doc.author _) doc.author = _
    rw [lookupA_updA_self, hrep]
    rfl

/-- Witness for C10: user 1's downvote on question 10 of `removeVoteState`
is deleted; the score stays 5 while the author's reputation becomes
max(0, 50 − (−2)) = 52. -/
theorem removeVote_skips_score_reversal_witness :
    (removeVote removeVoteState 1 10 .question).2 = .ok () ∧
    findVote (removeVote removeVoteState 1 10 .question).1.votes 1 10 .question = none ∧
    scoreOf (removeVote removeVoteState 1 10 .question).1 .question 10 =
      scoreOf removeVoteState .question 10 ∧
    lookupA (removeVote removeVoteState 1 10 .question).1.users 0 =
      some (updateReputation 50
        (-(calculateReputationChange (repActionFor .question .downvote)))) :=
  @removeVote_skips_score_reversal removeVoteState 1 10 .question
    ⟨1, 10, .question, .downvote⟩ ⟨0, 5⟩ 50
    (by decide) (by decide) (by decide) (by decide)

end QA
